import Mathlib

/-!
Verification of mixer.blender_data.datablock_collection_proxy against its
specification.

The two classes under study are DatablockCollectionProxy (a proxy to a
bpy.data collection of standalone datablocks) and DatablockRefCollectionProxy
(a proxy to a collection of datablock references such as
Scene.collection.objects).  Python dictionaries keyed by uuid strings are
embedded as association lists (insertion order preserved, assignment replaces
in place), live datablocks as records carrying their mixer_uuid and name, and
the external collaborators (bpy collection accessors, attribute codecs, the
per-datablock proxy loader) as explicit function parameters.  Operations that
can raise in Python (dict deletion and subscript on a missing key, the live
removal of an already destroyed datablock) are embedded with explicit
exceptional results so that the try/except structure of the source is visible
in the model.
-/

/-! ## Lexicographic order on strings, by code point

Python sorted() on str compares by unicode code point.  The Mathlib linear
order on String does not reduce in the kernel, so the comparison is written
out as a boolean function on the character lists. -/

def listCharLe : List Char → List Char → Bool
  | [], _ => true
  | _ :: _, [] => false
  | a :: as, b :: bs =>
    if a.toNat < b.toNat then true
    else if b.toNat < a.toNat then false
    else listCharLe as bs

/-- The order sorted() uses on Python str, as a relation on String. -/
def strLeR (a b : String) : Prop := listCharLe a.data b.data = true

instance : DecidableRel strLeR := fun a b => instDecidableEqBool (listCharLe a.data b.data) true

theorem char_eq_of_toNat_eq {a b : Char} (h : a.toNat = b.toNat) : a = b :=
  Char.ext (UInt32.ext h)

theorem listCharLe_total : ∀ as bs : List Char, listCharLe as bs = true ∨ listCharLe bs as = true
  | [], _ => Or.inl rfl
  | _ :: _, [] => Or.inr rfl
  | a :: as, b :: bs => by
    rcases Nat.lt_trichotomy a.toNat b.toNat with h | h | h
    · left
      simp [listCharLe, h]
    · have h1 : ¬ a.toNat < b.toNat := by omega
      have h2 : ¬ b.toNat < a.toNat := by omega
      simpa [listCharLe, h1, h2, h] using listCharLe_total as bs
    · right
      simp [listCharLe, h]

theorem listCharLe_trans : ∀ as bs cs : List Char,
    listCharLe as bs = true → listCharLe bs cs = true → listCharLe as cs = true
  | [], _, _, _, _ => rfl
  | _ :: _, [], _, h1, _ => by simp [listCharLe] at h1
  | _ :: _, _ :: _, [], _, h2 => by simp [listCharLe] at h2
  | a :: as, b :: bs, c :: cs, h1, h2 => by
    by_cases hab : a.toNat < b.toNat
    · by_cases hbc : b.toNat < c.toNat
      · have hac : a.toNat < c.toNat := Nat.lt_trans hab hbc
        simp [listCharLe, hac]
      · have hcb : ¬ c.toNat < b.toNat := by
          intro hcb
          simp [listCharLe, hcb, Nat.lt_asymm hcb] at h2
        have hac : a.toNat < c.toNat := by omega
        simp [listCharLe, hac]
    · have hba : ¬ b.toNat < a.toNat := by
        intro hba
        simp [listCharLe, hab, hba] at h1
      have hab2 : a.toNat = b.toNat := by omega
      by_cases hbc : b.toNat < c.toNat
      · have hac : a.toNat < c.toNat := by omega
        simp [listCharLe, hac]
      · have hcb : ¬ c.toNat < b.toNat := by
          intro hcb
          simp [listCharLe, hcb, Nat.lt_asymm hcb] at h2
        have hbc2 : b.toNat = c.toNat := by omega
        have hac1 : ¬ a.toNat < c.toNat := by omega
        have hca1 : ¬ c.toNat < a.toNat := by omega
        have t1 : listCharLe as bs = true := by
          simpa [listCharLe, hab, hba] using h1
        have t2 : listCharLe bs cs = true := by
          simpa [listCharLe, hbc, hcb] using h2
        simpa [listCharLe, hac1, hca1] using listCharLe_trans as bs cs t1 t2

theorem listCharLe_antisymm : ∀ as bs : List Char,
    listCharLe as bs = true → listCharLe bs as = true → as = bs
  | [], [], _, _ => rfl
  | [], _ :: _, _, h2 => by simp [listCharLe] at h2
  | _ :: _, [], h1, _ => by simp [listCharLe] at h1
  | a :: as, b :: bs, h1, h2 => by
    by_cases hab : a.toNat < b.toNat
    · simp [listCharLe, hab, Nat.lt_asymm hab] at h2
    · by_cases hba : b.toNat < a.toNat
      · simp [listCharLe, hab, hba] at h1
      · have hv : a = b := char_eq_of_toNat_eq (by omega)
        have t1 : listCharLe as bs = true := by simpa [listCharLe, hab, hba] using h1
        have t2 : listCharLe bs as = true := by simpa [listCharLe, hab, hba] using h2
        rw [hv, listCharLe_antisymm as bs t1 t2]

instance : IsTotal String strLeR := ⟨fun a b => listCharLe_total a.data b.data⟩

instance : IsTrans String strLeR := ⟨fun a b c => listCharLe_trans a.data b.data c.data⟩

instance : IsAntisymm String strLeR :=
  ⟨fun a b h1 h2 => by
    cases a
    cases b
    exact congrArg String.mk (listCharLe_antisymm _ _ h1 h2)⟩

/-- Embedding of sorted(...) at datablock_collection_proxy.py:208. -/
def sortStrings (l : List String) : List String :=
  List.insertionSort strLeR l

theorem sortStrings_eq_of_perm {l1 l2 : List String} (h : List.Perm l1 l2) :
    sortStrings l1 = sortStrings l2 :=
  List.eq_of_perm_of_sorted
    ((List.perm_insertionSort strLeR l1).trans (h.trans (List.perm_insertionSort strLeR l2).symm))
    (List.sorted_insertionSort strLeR l1) (List.sorted_insertionSort strLeR l2)

/-! ## Association lists as Python dicts

The proxies keep their members in dicts keyed by uuid strings.  insertAL is
d[k] = v (replace in place when the key is present, append otherwise),
eraseAL is del d[k] on a present key, lookupAL is d.get(k), keysAL is
d.keys() in insertion order. -/

abbrev Dict (α : Type) := List (String × α)

def lookupAL {α : Type} : Dict α → String → Option α
  | [], _ => none
  | (k, v) :: rest, key => if k = key then some v else lookupAL rest key

def hasKey {α : Type} (m : Dict α) (k : String) : Bool :=
  (lookupAL m k).isSome

def keysAL {α : Type} (m : Dict α) : List String :=
  m.map Prod.fst

def insertAL {α : Type} : Dict α → String → α → Dict α
  | [], key, v => [(key, v)]
  | (k, w) :: rest, key, v =>
    if k = key then (key, v) :: rest else (k, w) :: insertAL rest key v

def eraseAL {α : Type} : Dict α → String → Dict α
  | [], _ => []
  | (k, w) :: rest, key => if k = key then rest else (k, w) :: eraseAL rest key

theorem lookupAL_insert {α : Type} (m : Dict α) (k k2 : String) (v : α) :
    lookupAL (insertAL m k v) k2 = if k = k2 then some v else lookupAL m k2 := by
  induction m with
  | nil => simp [insertAL, lookupAL]
  | cons hd tl ih =>
    obtain ⟨k0, w⟩ := hd
    by_cases h0 : k0 = k
    · subst h0
      by_cases h : k0 = k2
      · subst h
        simp [insertAL, lookupAL]
      · simp [insertAL, lookupAL, h]
    · by_cases h : k0 = k2
      · subst h
        have hne : ¬ k = k0 := fun he => h0 he.symm
        simp [insertAL, lookupAL, h0, hne]
      · simp [insertAL, lookupAL, h0, h, ih]

theorem lookupAL_erase_ne {α : Type} (m : Dict α) (k k2 : String) (h : k ≠ k2) :
    lookupAL (eraseAL m k) k2 = lookupAL m k2 := by
  induction m with
  | nil => simp [eraseAL]
  | cons hd tl ih =>
    obtain ⟨k0, w⟩ := hd
    by_cases h0 : k0 = k
    · subst h0
      have hne : ¬ k0 = k2 := h
      simp [eraseAL, lookupAL, hne]
    · by_cases h2 : k0 = k2
      · subst h2
        simp [eraseAL, lookupAL, h0]
      · simp [eraseAL, lookupAL, h0, h2, ih]

theorem lookupAL_eq_none_of_not_mem {α : Type} (m : Dict α) (k : String)
    (h : k ∉ keysAL m) : lookupAL m k = none := by
  induction m with
  | nil => rfl
  | cons hd tl ih =>
    obtain ⟨k0, w⟩ := hd
    simp only [keysAL, List.map_cons, List.mem_cons, not_or] at h
    have hne : ¬ k0 = k := fun he => h.1 he.symm
    simp only [lookupAL, if_neg hne]
    exact ih (by simpa [keysAL] using h.2)

theorem lookupAL_isSome_iff_mem {α : Type} (m : Dict α) (k : String) :
    (lookupAL m k).isSome = true ↔ k ∈ keysAL m := by
  induction m with
  | nil => simp [lookupAL, keysAL]
  | cons hd tl ih =>
    obtain ⟨k0, w⟩ := hd
    by_cases h0 : k0 = k
    · subst h0
      simp [lookupAL, keysAL]
    · simp only [lookupAL, h0, if_false, keysAL, List.map_cons, List.mem_cons]
      rw [keysAL] at ih
      rw [ih]
      constructor
      · exact Or.inr
      · rintro (he | hm)
        · exact absurd he.symm h0
        · exact hm

theorem hasKey_iff_mem {α : Type} (m : Dict α) (k : String) :
    hasKey m k = true ↔ k ∈ keysAL m :=
  lookupAL_isSome_iff_mem m k

theorem lookupAL_erase_self {α : Type} (m : Dict α) (k : String)
    (hnd : (keysAL m).Nodup) : lookupAL (eraseAL m k) k = none := by
  induction m with
  | nil => rfl
  | cons hd tl ih =>
    obtain ⟨k0, w⟩ := hd
    simp only [keysAL, List.map_cons, List.nodup_cons] at hnd
    by_cases h0 : k0 = k
    · subst h0
      simp only [eraseAL, if_pos rfl]
      exact lookupAL_eq_none_of_not_mem tl k0 (by simpa [keysAL] using hnd.1)
    · simp only [eraseAL, if_neg h0, lookupAL, if_neg h0]
      exact ih (by simpa [keysAL] using hnd.2)

theorem keysAL_insert_nodup {α : Type} (m : Dict α) (k : String) (v : α)
    (hnd : (keysAL m).Nodup) : (keysAL (insertAL m k v)).Nodup := by
  induction m with
  | nil => simp [insertAL, keysAL]
  | cons hd tl ih =>
    obtain ⟨k0, w⟩ := hd
    simp only [keysAL, List.map_cons, List.nodup_cons] at hnd
    by_cases h0 : k0 = k
    · subst h0
      simpa [insertAL, keysAL] using hnd
    · have hmem : ∀ k2, k2 ∈ keysAL (insertAL tl k v) → k2 ∈ keysAL tl ∨ k2 = k := by
        intro k2 hk2
        by_cases he : k2 = k
        · exact Or.inr he
        · left
          rw [← lookupAL_isSome_iff_mem] at hk2 ⊢
          rw [lookupAL_insert, if_neg (fun hh => he hh.symm)] at hk2
          exact hk2
      have htl : (keysAL (insertAL tl k v)).Nodup := ih (by simpa [keysAL] using hnd.2)
      simp only [insertAL, if_neg h0, keysAL, List.map_cons, List.nodup_cons]
      constructor
      · intro hk0
        rcases hmem k0 (by simpa [keysAL] using hk0) with hm | he
        · exact hnd.1 (by simpa [keysAL] using hm)
        · exact h0 he
      · exact htl

theorem eraseAL_sublist {α : Type} (m : Dict α) (k : String) :
    List.Sublist (eraseAL m k) m := by
  induction m with
  | nil => simp [eraseAL]
  | cons hd tl ih =>
    obtain ⟨k0, w⟩ := hd
    by_cases h0 : k0 = k
    · rw [eraseAL, if_pos h0]
      exact List.Sublist.cons (k0, w) (List.Sublist.refl tl)
    · rw [eraseAL, if_neg h0]
      exact List.Sublist.cons₂ (k0, w) ih

theorem keysAL_erase_nodup {α : Type} (m : Dict α) (k : String)
    (hnd : (keysAL m).Nodup) : (keysAL (eraseAL m k)).Nodup :=
  List.Nodup.sublist (List.Sublist.map Prod.fst (eraseAL_sublist m k)) hnd

theorem lookupAL_append {α : Type} (m1 m2 : Dict α) (k : String) :
    lookupAL (m1 ++ m2) k =
      match lookupAL m1 k with
      | some v => some v
      | none => lookupAL m2 k := by
  induction m1 with
  | nil => simp [lookupAL]
  | cons hd tl ih =>
    obtain ⟨k0, w⟩ := hd
    by_cases h0 : k0 = k <;> simp [lookupAL, h0, ih]

theorem lookupAL_mem {α : Type} {m : Dict α} {k : String} {v : α}
    (hv : lookupAL m k = some v) : (k, v) ∈ m := by
  induction m with
  | nil => simp [lookupAL] at hv
  | cons hd tl ih =>
    obtain ⟨k0, w⟩ := hd
    by_cases h0 : k0 = k
    · subst h0
      simp only [lookupAL, if_true, eq_self_iff_true, Option.some.injEq] at hv
      subst hv
      exact List.mem_cons_self _ _
    · simp only [lookupAL, if_neg h0] at hv
      exact List.mem_cons_of_mem _ (ih hv)

theorem mem_lookupAL {α : Type} {m : Dict α} {k : String} {v : α}
    (hnd : (keysAL m).Nodup) (hv : (k, v) ∈ m) : lookupAL m k = some v := by
  induction m with
  | nil => simp at hv
  | cons hd tl ih =>
    obtain ⟨k0, w⟩ := hd
    simp only [keysAL, List.map_cons, List.nodup_cons] at hnd
    rcases List.mem_cons.mp hv with he | hm2
    · injection he with he1 he2
      subst he1
      subst he2
      simp [lookupAL]
    · have hne : ¬ k0 = k := by
        intro heq
        subst heq
        exact hnd.1 (by simpa [keysAL] using List.mem_map_of_mem Prod.fst hm2)
      simp only [lookupAL, if_neg hne]
      exact ih (by simpa [keysAL] using hnd.2) hm2

theorem lookupAL_perm {α : Type} {m1 m2 : Dict α} (hperm : List.Perm m1 m2)
    (hnd : (keysAL m1).Nodup) (k : String) : lookupAL m1 k = lookupAL m2 k := by
  have hnd2 : (keysAL m2).Nodup := (List.Perm.map Prod.fst hperm).nodup_iff.mp hnd
  cases hv : lookupAL m1 k with
  | some v => exact (mem_lookupAL hnd2 (hperm.mem_iff.mp (lookupAL_mem hv))).symm
  | none =>
    cases hv2 : lookupAL m2 k with
    | none => rfl
    | some v =>
      have := mem_lookupAL hnd (hperm.mem_iff.mpr (lookupAL_mem hv2))
      rw [hv] at this
      exact Option.noConfusion this

/-! ## Data model for reference collections

DatablockRefProxy (datablock_ref_proxy.py, data carrier only) holds the uuid
of the referenced datablock and a debug name.  A live datablock is embedded
as its mixer_uuid plus its name.  The Delta classes of
mixer.blender_data.proxy are a tagged union with a value payload; for
reference collections every payload is a DatablockRefProxy. -/

structure DatablockRefProxy where
  datablock_uuid : String
  debug_name : String
deriving DecidableEq, Repr

structure LiveItem where
  mixer_uuid : String
  name : String
deriving DecidableEq, Repr

inductive RefDelta where
  | deltaAddition (value : DatablockRefProxy)
  | deltaDeletion (value : DatablockRefProxy)
  | deltaUpdate (value : DatablockRefProxy)
deriving DecidableEq, Repr

/-- Embedding of the dict comprehension at datablock_collection_proxy.py:440:
blender_items = a dict from mixer_uuid to item over collection.values(). -/
def blenderItemsOf (collection : List LiveItem) : Dict LiveItem :=
  collection.foldl (fun m it => insertAL m it.mixer_uuid it) []

/-- Per added key, the delta diff stores: DeltaAddition of read_attribute on
the live item (datablock_collection_proxy.py:446-449).  read_attribute is the
external attribute codec, a parameter of the embedding. -/
def gAdd (readAttr : LiveItem → DatablockRefProxy) (bl : Dict LiveItem) (k : String) :
    Option RefDelta :=
  (lookupAL bl k).map (fun it => RefDelta.deltaAddition (readAttr it))

/-- Per deleted key: DeltaDeletion of the old proxy value
(datablock_collection_proxy.py:451-452). -/
def gDel (self_data : Dict DatablockRefProxy) (k : String) : Option RefDelta :=
  (lookupAL self_data k).map RefDelta.deltaDeletion

/-- Per key present on both sides: the recursive member diff, included only
when diff_attribute (external codec, parameter diffAttr) reports a change
(datablock_collection_proxy.py:454-458). -/
def gUpd (diffAttr : LiveItem → DatablockRefProxy → Option DatablockRefProxy)
    (bl : Dict LiveItem) (self_data : Dict DatablockRefProxy) (k : String) : Option RefDelta :=
  match lookupAL bl k, lookupAL self_data k with
  | some it, some p => (diffAttr it p).map RefDelta.deltaUpdate
  | _, _ => none

def entriesFor (g : String → Option RefDelta) (ks : List String) : Dict RefDelta :=
  ks.filterMap (fun k => (g k).map (fun d => (k, d)))

/-- Member map of the delta built by DatablockRefCollectionProxy.diff
(datablock_collection_proxy.py:434-458): added keys are the live keys not in
the proxy, deleted keys the proxy keys not live, both sets of keys get the
per-member diff. -/
def diffData (self_data : Dict DatablockRefProxy) (collection : List LiveItem)
    (readAttr : LiveItem → DatablockRefProxy)
    (diffAttr : LiveItem → DatablockRefProxy → Option DatablockRefProxy) : Dict RefDelta :=
  let bl := blenderItemsOf collection
  let added_keys := (keysAL bl).filter (fun k => !(hasKey self_data k))
  let deleted_keys := (keysAL self_data).filter (fun k => !(hasKey bl k))
  let maybe_updated_keys := (keysAL self_data).filter (fun k => hasKey bl k)
  entriesFor (gAdd readAttr bl) added_keys
    ++ entriesFor (gDel self_data) deleted_keys
    ++ entriesFor (gUpd diffAttr bl self_data) maybe_updated_keys

/-- Embedding of DatablockRefCollectionProxy.diff
(datablock_collection_proxy.py:415-463): the delta member map when any member
changed, none otherwise (line 460-463). -/
def DatablockRefCollectionProxy.diff (self_data : Dict DatablockRefProxy)
    (collection : List LiveItem) (readAttr : LiveItem → DatablockRefProxy)
    (diffAttr : LiveItem → DatablockRefProxy → Option DatablockRefProxy) :
    Option (Dict RefDelta) :=
  let d := diffData self_data collection readAttr diffAttr
  if d.isEmpty then none else some d

theorem lookupAL_entriesFor (g : String → Option RefDelta) (ks : List String) (k : String) :
    lookupAL (entriesFor g ks) k = if k ∈ ks then g k else none := by
  induction ks with
  | nil => simp [entriesFor, lookupAL]
  | cons k0 rest ih =>
    by_cases h0 : k = k0
    · subst h0
      cases hg : g k with
      | some d => simp [entriesFor, List.filterMap_cons, lookupAL, hg]
      | none =>
        rw [entriesFor] at ih ⊢
        simp only [List.filterMap_cons, hg, Option.map_none']
        rw [ih]
        by_cases hr : k ∈ rest <;> simp [hr, hg]
    · cases hg : g k0 with
      | some d =>
        rw [entriesFor] at ih ⊢
        simp only [List.filterMap_cons, hg, Option.map_some']
        rw [lookupAL, if_neg (fun he => h0 he.symm : ¬ k0 = k), ih]
        by_cases hr : k ∈ rest <;> simp [hr, h0]
      | none =>
        rw [entriesFor] at ih ⊢
        simp only [List.filterMap_cons, hg, Option.map_none']
        rw [ih]
        by_cases hr : k ∈ rest <;> simp [hr, h0]

theorem hasKey_eq_false_iff {α : Type} (m : Dict α) (k : String) :
    hasKey m k = false ↔ lookupAL m k = none := by
  rw [hasKey]
  cases h : lookupAL m k <;> simp

theorem lookupAL_diffData (self_data : Dict DatablockRefProxy) (collection : List LiveItem)
    (readAttr : LiveItem → DatablockRefProxy)
    (diffAttr : LiveItem → DatablockRefProxy → Option DatablockRefProxy) (k : String) :
    lookupAL (diffData self_data collection readAttr diffAttr) k =
      match lookupAL (blenderItemsOf collection) k, lookupAL self_data k with
      | some it, none => some (RefDelta.deltaAddition (readAttr it))
      | none, some p => some (RefDelta.deltaDeletion p)
      | some it, some p => Option.map RefDelta.deltaUpdate (diffAttr it p)
      | none, none => none := by
  have hmem_bl : (k ∈ keysAL (blenderItemsOf collection))
      ↔ (lookupAL (blenderItemsOf collection) k).isSome = true :=
    (lookupAL_isSome_iff_mem _ k).symm
  have hmem_self : (k ∈ keysAL self_data) ↔ (lookupAL self_data k).isSome = true :=
    (lookupAL_isSome_iff_mem _ k).symm
  simp only [diffData]
  rw [lookupAL_append, lookupAL_append, lookupAL_entriesFor, lookupAL_entriesFor,
    lookupAL_entriesFor]
  rcases hb : lookupAL (blenderItemsOf collection) k with _ | it <;>
    rcases hs : lookupAL self_data k with _ | p
  · have h1 : k ∉ keysAL (blenderItemsOf collection) := by simp [hmem_bl, hb]
    have h2 : k ∉ keysAL self_data := by simp [hmem_self, hs]
    simp [List.mem_filter, h1, h2]
  · have h1 : k ∉ keysAL (blenderItemsOf collection) := by simp [hmem_bl, hb]
    have h2 : k ∈ keysAL self_data := by simp [hmem_self, hs]
    have hk1 : hasKey (blenderItemsOf collection) k = false := by simp [hasKey, hb]
    simp [List.mem_filter, h1, h2, hk1, gDel, hs]
  · have h1 : k ∈ keysAL (blenderItemsOf collection) := by simp [hmem_bl, hb]
    have h2 : k ∉ keysAL self_data := by simp [hmem_self, hs]
    have hk1 : hasKey self_data k = false := by simp [hasKey, hs]
    simp [List.mem_filter, h1, h2, hk1, gAdd, hb]
  · have h1 : k ∈ keysAL (blenderItemsOf collection) := by simp [hmem_bl, hb]
    have h2 : k ∈ keysAL self_data := by simp [hmem_self, hs]
    have hk1 : hasKey self_data k = true := by simp [hasKey, hs]
    have hk2 : hasKey (blenderItemsOf collection) k = true := by simp [hasKey, hb]
    simp [List.mem_filter, h1, h2, hk1, hk2, gUpd, hb, hs]

/-- C1: the member map of the delta computed by DatablockRefCollectionProxy.diff
holds a DeltaAddition of the live value read by the attribute codec exactly at
the identifiers present live but not in the proxy, a DeltaDeletion wrapping the
old reference proxy exactly at the identifiers present in the proxy but not
live, and, at identifiers present on both sides, the recursive per-member delta
exactly when the member codec reports a change; when no member changed, diff
returns none rather than an empty update. -/
theorem DatablockRefCollectionProxy.diff_member_spec
    (self_data : Dict DatablockRefProxy) (collection : List LiveItem)
    (readAttr : LiveItem → DatablockRefProxy)
    (diffAttr : LiveItem → DatablockRefProxy → Option DatablockRefProxy) :
    (∀ k it, lookupAL (blenderItemsOf collection) k = some it →
      lookupAL self_data k = none →
      lookupAL (diffData self_data collection readAttr diffAttr) k
        = some (RefDelta.deltaAddition (readAttr it)))
    ∧ (∀ k p, lookupAL self_data k = some p →
      lookupAL (blenderItemsOf collection) k = none →
      lookupAL (diffData self_data collection readAttr diffAttr) k
        = some (RefDelta.deltaDeletion p))
    ∧ (∀ k it p, lookupAL (blenderItemsOf collection) k = some it →
      lookupAL self_data k = some p →
      lookupAL (diffData self_data collection readAttr diffAttr) k
        = Option.map RefDelta.deltaUpdate (diffAttr it p))
    ∧ (∀ k, lookupAL (blenderItemsOf collection) k = none →
      lookupAL self_data k = none →
      lookupAL (diffData self_data collection readAttr diffAttr) k = none)
    ∧ (DatablockRefCollectionProxy.diff self_data collection readAttr diffAttr = none
       ↔ ∀ k, lookupAL (diffData self_data collection readAttr diffAttr) k = none) := by
  refine ⟨?_, ?_, ?_, ?_, ?_⟩
  · intro k it hb hs
    rw [lookupAL_diffData]
    simp [hb, hs]
  · intro k p hs hb
    rw [lookupAL_diffData]
    simp [hb, hs]
  · intro k it p hb hs
    rw [lookupAL_diffData]
    simp [hb, hs]
  · intro k hb hs
    rw [lookupAL_diffData]
    simp [hb, hs]
  · rw [DatablockRefCollectionProxy.diff]
    cases hd : diffData self_data collection readAttr diffAttr with
    | nil => simp [hd, lookupAL]
    | cons e t =>
      obtain ⟨k0, d⟩ := e
      apply iff_of_false
      · simp
      · intro hall
        have := hall k0
        simp [lookupAL] at this

/-! ## DatablockRefCollectionProxy.apply (datablock_collection_proxy.py:356-413)

State touched by apply: the live collection reached as getattr(parent, key),
embedded as the list of linked datablocks, and the snapshot dict self._data.
The loop body sits in a try/except; the raising operation of the embedding is
del self._data[k] on a missing key (Python KeyError); collection.link and
collection.unlink are embedded as total list operations.  An exception leaves
the state reached at the raise point and the loop continues with the next
member. -/

structure ApplyState where
  liveLinked : List LiveItem
  snapshot : Dict DatablockRefProxy
deriving DecidableEq, Repr

inductive MemberResult where
  | ok (st : ApplyState)
  | raised (st : ApplyState)
deriving DecidableEq, Repr

/-- One iteration of the apply loop WITHOUT the surrounding try/except
(datablock_collection_proxy.py:376-405).  A DeltaUpdate member is the
unexpected-type branch of line 376: warned about and skipped.  For a
DeltaAddition with to_blender, an unregistered uuid only skips the link (line
392), the snapshot is still written (line 403).  For a DeltaDeletion, a
missing live datablock is tolerated (line 399), and del on a snapshot key
that is absent raises KeyError. -/
def applyMemberTry (datablocks : Dict LiveItem) (to_blender : Bool)
    (st : ApplyState) (k : String) (d : RefDelta) : MemberResult :=
  match d with
  | RefDelta.deltaUpdate _ => MemberResult.ok st
  | RefDelta.deltaAddition ref =>
    if to_blender then
      match lookupAL datablocks ref.datablock_uuid with
      | some db =>
        MemberResult.ok { liveLinked := st.liveLinked ++ [db],
                          snapshot := insertAL st.snapshot k ref }
      | none => MemberResult.ok { st with snapshot := insertAL st.snapshot k ref }
    else MemberResult.ok { st with snapshot := insertAL st.snapshot k ref }
  | RefDelta.deltaDeletion ref =>
    let st1 :=
      if to_blender then
        match lookupAL datablocks ref.datablock_uuid with
        | some db => { st with liveLinked := st.liveLinked.filter (fun x => x ≠ db) }
        | none => st
      else st
    if hasKey st1.snapshot k then MemberResult.ok { st1 with snapshot := eraseAL st1.snapshot k }
    else MemberResult.raised st1

/-- One iteration with the try/except of lines 375 and 406-411: an exception
is logged, the member is skipped and the loop continues from the state at the
raise point. -/
def applyMember (datablocks : Dict LiveItem) (to_blender : Bool)
    (st : ApplyState) (k : String) (d : RefDelta) : ApplyState :=
  match applyMemberTry datablocks to_blender st k d with
  | MemberResult.ok s => s
  | MemberResult.raised s => s

/-- The member loop of DatablockRefCollectionProxy.apply over the member map
of the received delta (datablock_collection_proxy.py:374-411). -/
def DatablockRefCollectionProxy.apply (datablocks : Dict LiveItem) (to_blender : Bool) :
    ApplyState → Dict RefDelta → ApplyState
  | st, [] => st
  | st, (k, d) :: rest =>
    DatablockRefCollectionProxy.apply datablocks to_blender
      (applyMember datablocks to_blender st k d) rest

/-- C4: an exception raised while processing one member delta of a batch is
caught, that member is skipped (the state stays as reached at the raise
point), and the remaining member deltas of the batch are still processed;
apply never propagates a per-member exception. -/
theorem DatablockRefCollectionProxy.apply_member_exception_isolated
    (datablocks : Dict LiveItem) (to_blender : Bool) (st s1 : ApplyState)
    (pre post : Dict RefDelta) (k : String) (d : RefDelta)
    (hraise : applyMemberTry datablocks to_blender
      (DatablockRefCollectionProxy.apply datablocks to_blender st pre) k d
        = MemberResult.raised s1) :
    DatablockRefCollectionProxy.apply datablocks to_blender st (pre ++ (k, d) :: post)
      = DatablockRefCollectionProxy.apply datablocks to_blender s1 post := by
  induction pre generalizing st with
  | nil =>
    simp only [List.nil_append, DatablockRefCollectionProxy.apply, applyMember]
    rw [DatablockRefCollectionProxy.apply] at hraise
    rw [hraise]
  | cons e rest ih =>
    obtain ⟨k0, d0⟩ := e
    rw [DatablockRefCollectionProxy.apply] at hraise
    simp only [List.cons_append, DatablockRefCollectionProxy.apply]
    exact ih _ hraise

/-- C10: a DeltaAddition whose referenced identifier has no registered live
datablock warns and skips the link into the live collection, but the incoming
reference proxy is still recorded in the snapshot under that identifier. -/
theorem DatablockRefCollectionProxy.apply_addition_unregistered
    (datablocks : Dict LiveItem) (st : ApplyState) (k : String) (ref : DatablockRefProxy)
    (hunreg : lookupAL datablocks ref.datablock_uuid = none) :
    DatablockRefCollectionProxy.apply datablocks true st [(k, RefDelta.deltaAddition ref)]
      = { st with snapshot := insertAL st.snapshot k ref }
    ∧ (DatablockRefCollectionProxy.apply datablocks true st
        [(k, RefDelta.deltaAddition ref)]).liveLinked = st.liveLinked
    ∧ lookupAL (DatablockRefCollectionProxy.apply datablocks true st
        [(k, RefDelta.deltaAddition ref)]).snapshot k = some ref := by
  have h1 : DatablockRefCollectionProxy.apply datablocks true st
      [(k, RefDelta.deltaAddition ref)] = { st with snapshot := insertAL st.snapshot k ref } := by
    simp [DatablockRefCollectionProxy.apply, applyMember, applyMemberTry, hunreg]
  refine ⟨h1, ?_, ?_⟩
  · rw [h1]
  · rw [h1, lookupAL_insert]
    simp

/-! ## Convergence of diff followed by apply on the snapshot -/

/-- Effect of one apply iteration on the snapshot alone: additions insert,
deletions erase when the key is present (a missing key raises and leaves the
snapshot unchanged), update members never touch the snapshot. -/
def snapStep (snap : Dict DatablockRefProxy) (k : String) (d : RefDelta) :
    Dict DatablockRefProxy :=
  match d with
  | RefDelta.deltaUpdate _ => snap
  | RefDelta.deltaAddition ref => insertAL snap k ref
  | RefDelta.deltaDeletion _ => if hasKey snap k then eraseAL snap k else snap

theorem applyMember_snapshot (datablocks : Dict LiveItem) (tb : Bool)
    (st : ApplyState) (k : String) (d : RefDelta) :
    (applyMember datablocks tb st k d).snapshot = snapStep st.snapshot k d := by
  cases d with
  | deltaUpdate v => rfl
  | deltaAddition ref =>
    rw [applyMember, applyMemberTry]
    by_cases htb : tb
    · cases hdb : lookupAL datablocks ref.datablock_uuid with
      | some db => simp [htb, hdb, snapStep]
      | none => simp [htb, hdb, snapStep]
    · simp [htb, snapStep]
  | deltaDeletion ref =>
    rw [applyMember, applyMemberTry]
    by_cases htb : tb
    · cases hdb : lookupAL datablocks ref.datablock_uuid with
      | some db =>
        by_cases hk : hasKey st.snapshot k <;> simp [htb, hdb, hk, snapStep]
      | none =>
        by_cases hk : hasKey st.snapshot k <;> simp [htb, hdb, hk, snapStep]
    · by_cases hk : hasKey st.snapshot k <;> simp [htb, hk, snapStep]

def foldSnap (snap : Dict DatablockRefProxy) (l : Dict RefDelta) : Dict DatablockRefProxy :=
  l.foldl (fun s kd => snapStep s kd.1 kd.2) snap

theorem apply_snapshot (datablocks : Dict LiveItem) (tb : Bool) (st : ApplyState)
    (l : Dict RefDelta) :
    (DatablockRefCollectionProxy.apply datablocks tb st l).snapshot
      = foldSnap st.snapshot l := by
  induction l generalizing st with
  | nil => rfl
  | cons e rest ih =>
    obtain ⟨k, d⟩ := e
    rw [DatablockRefCollectionProxy.apply, ih, applyMember_snapshot]
    simp [foldSnap]

theorem foldSnap_append (snap : Dict DatablockRefProxy) (l1 l2 : Dict RefDelta) :
    foldSnap snap (l1 ++ l2) = foldSnap (foldSnap snap l1) l2 := by
  simp [foldSnap, List.foldl_append]

theorem snapStep_nodup (snap : Dict DatablockRefProxy) (k : String) (d : RefDelta)
    (hnd : (keysAL snap).Nodup) : (keysAL (snapStep snap k d)).Nodup := by
  cases d with
  | deltaUpdate v => exact hnd
  | deltaAddition ref => exact keysAL_insert_nodup snap k ref hnd
  | deltaDeletion ref =>
    by_cases hk : hasKey snap k
    · simpa [snapStep, hk] using keysAL_erase_nodup snap k hnd
    · simpa [snapStep, hk] using hnd

theorem foldSnap_nodup (l : Dict RefDelta) (snap : Dict DatablockRefProxy)
    (hnd : (keysAL snap).Nodup) : (keysAL (foldSnap snap l)).Nodup := by
  induction l generalizing snap with
  | nil => exact hnd
  | cons e rest ih =>
    obtain ⟨k, d⟩ := e
    rw [foldSnap, List.foldl_cons]
    exact ih _ (snapStep_nodup snap k d hnd)

theorem snapStep_lookup_other (snap : Dict DatablockRefProxy) (k k2 : String)
    (d : RefDelta) (hne : k ≠ k2) :
    lookupAL (snapStep snap k d) k2 = lookupAL snap k2 := by
  cases d with
  | deltaUpdate v => rfl
  | deltaAddition ref =>
    rw [snapStep, lookupAL_insert, if_neg hne]
  | deltaDeletion ref =>
    by_cases hk : hasKey snap k
    · simp [snapStep, hk, lookupAL_erase_ne snap k k2 hne]
    · simp [snapStep, hk]

theorem foldSnap_cons (snap : Dict DatablockRefProxy) (k : String) (d : RefDelta)
    (l : Dict RefDelta) :
    foldSnap snap ((k, d) :: l) = foldSnap (snapStep snap k d) l := by
  simp [foldSnap]

theorem entriesFor_cons_some (g : String → Option RefDelta) (k0 : String) (d : RefDelta)
    (rest : List String) (hg : g k0 = some d) :
    entriesFor g (k0 :: rest) = (k0, d) :: entriesFor g rest := by
  rw [entriesFor, List.filterMap_cons, hg, Option.map_some']
  rfl

theorem entriesFor_cons_none (g : String → Option RefDelta) (k0 : String)
    (rest : List String) (hg : g k0 = none) :
    entriesFor g (k0 :: rest) = entriesFor g rest := by
  rw [entriesFor, List.filterMap_cons, hg, Option.map_none']
  rfl

theorem foldSnap_entriesFor_lookup_notmem (g : String → Option RefDelta)
    (ks : List String) (snap : Dict DatablockRefProxy) (k : String) (hk : k ∉ ks) :
    lookupAL (foldSnap snap (entriesFor g ks)) k = lookupAL snap k := by
  induction ks generalizing snap with
  | nil => rfl
  | cons k0 rest ih =>
    have hne : k0 ≠ k := fun he => hk (he ▸ List.mem_cons_self k0 rest)
    have hk2 : k ∉ rest := fun hm => hk (List.mem_cons_of_mem k0 hm)
    cases hg : g k0 with
    | some d =>
      rw [entriesFor_cons_some g k0 d rest hg, foldSnap_cons]
      rw [ih (snapStep snap k0 d) hk2]
      exact snapStep_lookup_other snap k0 k d hne
    | none =>
      rw [entriesFor_cons_none g k0 rest hg]
      exact ih snap hk2

theorem foldSnap_entriesFor_lookup_add (g : String → Option RefDelta)
    (ks : List String) (snap : Dict DatablockRefProxy) (k : String) (ref : DatablockRefProxy)
    (hnd : ks.Nodup) (hmem : k ∈ ks) (hg : g k = some (RefDelta.deltaAddition ref)) :
    lookupAL (foldSnap snap (entriesFor g ks)) k = some ref := by
  induction ks generalizing snap with
  | nil => cases hmem
  | cons k0 rest ih =>
    rcases List.mem_cons.mp hmem with he | hm
    · subst he
      rw [entriesFor_cons_some g k _ rest hg, foldSnap_cons]
      have hnotin : k ∉ rest := (List.nodup_cons.mp hnd).1
      rw [foldSnap_entriesFor_lookup_notmem g rest _ k hnotin]
      rw [snapStep, lookupAL_insert]
      simp
    · have hne : k0 ≠ k := by
        intro he0
        subst he0
        exact (List.nodup_cons.mp hnd).1 hm
      cases hg0 : g k0 with
      | some d0 =>
        rw [entriesFor_cons_some g k0 d0 rest hg0, foldSnap_cons]
        exact ih (snapStep snap k0 d0) (List.nodup_cons.mp hnd).2 hm
      | none =>
        rw [entriesFor_cons_none g k0 rest hg0]
        exact ih snap (List.nodup_cons.mp hnd).2 hm

theorem foldSnap_entriesFor_lookup_del (g : String → Option RefDelta)
    (ks : List String) (snap : Dict DatablockRefProxy) (k : String) (p : DatablockRefProxy)
    (hndks : ks.Nodup) (hndsnap : (keysAL snap).Nodup)
    (hmem : k ∈ ks) (hg : g k = some (RefDelta.deltaDeletion p)) :
    lookupAL (foldSnap snap (entriesFor g ks)) k = none := by
  induction ks generalizing snap with
  | nil => cases hmem
  | cons k0 rest ih =>
    rcases List.mem_cons.mp hmem with he | hm
    · subst he
      rw [entriesFor_cons_some g k _ rest hg, foldSnap_cons]
      have hnotin : k ∉ rest := (List.nodup_cons.mp hndks).1
      rw [foldSnap_entriesFor_lookup_notmem g rest _ k hnotin]
      rw [snapStep]
      by_cases hk : hasKey snap k
      · rw [if_pos hk]
        exact lookupAL_erase_self snap k hndsnap
      · rw [if_neg hk]
        exact (hasKey_eq_false_iff snap k).mp (by simpa using hk)
    · have hne : k0 ≠ k := by
        intro he0
        subst he0
        exact (List.nodup_cons.mp hndks).1 hm
      cases hg0 : g k0 with
      | some d0 =>
        rw [entriesFor_cons_some g k0 d0 rest hg0, foldSnap_cons]
        exact ih (snapStep snap k0 d0) (List.nodup_cons.mp hndks).2
          (snapStep_nodup snap k0 d0 hndsnap) hm
      | none =>
        rw [entriesFor_cons_none g k0 rest hg0]
        exact ih snap (List.nodup_cons.mp hndks).2 hndsnap hm

theorem foldSnap_entriesFor_upd (g : String → Option RefDelta) (ks : List String)
    (snap : Dict DatablockRefProxy)
    (hg : ∀ k d, g k = some d → ∃ v, d = RefDelta.deltaUpdate v) :
    foldSnap snap (entriesFor g ks) = snap := by
  induction ks generalizing snap with
  | nil => rfl
  | cons k0 rest ih =>
    cases hg0 : g k0 with
    | some d =>
      obtain ⟨v, hv⟩ := hg k0 d hg0
      subst hv
      rw [entriesFor_cons_some g k0 _ rest hg0, foldSnap_cons]
      rw [show snapStep snap k0 (RefDelta.deltaUpdate v) = snap from rfl]
      exact ih snap
    | none =>
      rw [entriesFor_cons_none g k0 rest hg0]
      exact ih snap

theorem foldl_insert_keys_nodup (collection : List LiveItem) :
    ∀ m : Dict LiveItem, (keysAL m).Nodup →
      (keysAL (collection.foldl (fun m it => insertAL m it.mixer_uuid it) m)).Nodup := by
  induction collection with
  | nil =>
    intro m hm
    simpa using hm
  | cons it rest ih =>
    intro m hm
    rw [List.foldl_cons]
    exact ih _ (keysAL_insert_nodup m it.mixer_uuid it hm)

theorem blenderItemsOf_keys_nodup (collection : List LiveItem) :
    (keysAL (blenderItemsOf collection)).Nodup :=
  foldl_insert_keys_nodup collection [] (by simp [keysAL])

theorem foldSnap_diffData_hasKey (self_data : Dict DatablockRefProxy)
    (collection : List LiveItem) (readAttr : LiveItem → DatablockRefProxy)
    (diffAttr : LiveItem → DatablockRefProxy → Option DatablockRefProxy)
    (hnd : (keysAL self_data).Nodup) (k : String) :
    hasKey (foldSnap self_data (diffData self_data collection readAttr diffAttr)) k
      = hasKey (blenderItemsOf collection) k := by
  have hblnd : (keysAL (blenderItemsOf collection)).Nodup := blenderItemsOf_keys_nodup collection
  have hupd : ∀ k2 d, gUpd diffAttr (blenderItemsOf collection) self_data k2 = some d →
      ∃ v, d = RefDelta.deltaUpdate v := by
    intro k2 d hgd
    simp only [gUpd] at hgd
    rcases h1 : lookupAL (blenderItemsOf collection) k2 with _ | it <;> rw [h1] at hgd
    · simp at hgd
    · rcases h2 : lookupAL self_data k2 with _ | p <;> rw [h2] at hgd
      · simp at hgd
      · have hgd2 : Option.map RefDelta.deltaUpdate (diffAttr it p) = some d := hgd
        rcases hda : diffAttr it p with _ | v <;> rw [hda] at hgd2
        · simp at hgd2
        · simp only [Option.map_some', Option.some.injEq] at hgd2
          exact ⟨v, hgd2.symm⟩
  simp only [diffData]
  rw [foldSnap_append, foldSnap_append, foldSnap_entriesFor_upd _ _ _ hupd]
  have haddnd : ((keysAL (blenderItemsOf collection)).filter
      (fun x => !(hasKey self_data x))).Nodup := List.Nodup.filter _ hblnd
  have hdelnd : ((keysAL self_data).filter
      (fun x => !(hasKey (blenderItemsOf collection) x))).Nodup := List.Nodup.filter _ hnd
  rcases hb : lookupAL (blenderItemsOf collection) k with _ | it <;>
    rcases hs : lookupAL self_data k with _ | p
  · have h1 : k ∉ keysAL (blenderItemsOf collection) := by
      rw [← lookupAL_isSome_iff_mem]
      simp [hb]
    have h2 : k ∉ keysAL self_data := by
      rw [← lookupAL_isSome_iff_mem]
      simp [hs]
    have hna : k ∉ (keysAL (blenderItemsOf collection)).filter
        (fun x => !(hasKey self_data x)) := fun hmem => h1 (List.mem_filter.mp hmem).1
    have hnd2 : k ∉ (keysAL self_data).filter
        (fun x => !(hasKey (blenderItemsOf collection) x)) :=
      fun hmem => h2 (List.mem_filter.mp hmem).1
    rw [hasKey, foldSnap_entriesFor_lookup_notmem _ _ _ _ hnd2,
      foldSnap_entriesFor_lookup_notmem _ _ _ _ hna, hs, hasKey, hb]
    rfl
  · have h1 : k ∉ keysAL (blenderItemsOf collection) := by
      rw [← lookupAL_isSome_iff_mem]
      simp [hb]
    have h2 : k ∈ keysAL self_data := by
      rw [← lookupAL_isSome_iff_mem]
      simp [hs]
    have hna : k ∉ (keysAL (blenderItemsOf collection)).filter
        (fun x => !(hasKey self_data x)) := fun hmem => h1 (List.mem_filter.mp hmem).1
    have hmd : k ∈ (keysAL self_data).filter
        (fun x => !(hasKey (blenderItemsOf collection) x)) := by
      refine List.mem_filter.mpr ⟨h2, ?_⟩
      simp [hasKey, hb]
    have hgdel : gDel self_data k = some (RefDelta.deltaDeletion p) := by
      rw [gDel, hs, Option.map_some']
    have hsnapnd : (keysAL (foldSnap self_data
        (entriesFor (gAdd readAttr (blenderItemsOf collection))
          ((keysAL (blenderItemsOf collection)).filter
            (fun x => !(hasKey self_data x)))))).Nodup :=
      foldSnap_nodup _ _ hnd
    rw [hasKey, foldSnap_entriesFor_lookup_del _ _ _ _ p hdelnd hsnapnd hmd hgdel, hasKey, hb]
    rfl
  · have h1 : k ∈ keysAL (blenderItemsOf collection) := by
      rw [← lookupAL_isSome_iff_mem]
      simp [hb]
    have h2 : k ∉ keysAL self_data := by
      rw [← lookupAL_isSome_iff_mem]
      simp [hs]
    have hma : k ∈ (keysAL (blenderItemsOf collection)).filter
        (fun x => !(hasKey self_data x)) := by
      refine List.mem_filter.mpr ⟨h1, ?_⟩
      simp [hasKey, hs]
    have hnd2 : k ∉ (keysAL self_data).filter
        (fun x => !(hasKey (blenderItemsOf collection) x)) :=
      fun hmem => h2 (List.mem_filter.mp hmem).1
    have hgadd : gAdd readAttr (blenderItemsOf collection) k
        = some (RefDelta.deltaAddition (readAttr it)) := by
      rw [gAdd, hb, Option.map_some']
    rw [hasKey, foldSnap_entriesFor_lookup_notmem _ _ _ _ hnd2,
      foldSnap_entriesFor_lookup_add _ _ _ _ (readAttr it) haddnd hma hgadd, hasKey, hb]
    rfl
  · have h1 : k ∈ keysAL (blenderItemsOf collection) := by
      rw [← lookupAL_isSome_iff_mem]
      simp [hb]
    have hna : k ∉ (keysAL (blenderItemsOf collection)).filter
        (fun x => !(hasKey self_data x)) := by
      intro hmem
      have := (List.mem_filter.mp hmem).2
      simp [hasKey, hs] at this
    have hnd2 : k ∉ (keysAL self_data).filter
        (fun x => !(hasKey (blenderItemsOf collection) x)) := by
      intro hmem
      have := (List.mem_filter.mp hmem).2
      simp [hasKey, hb] at this
    rw [hasKey, foldSnap_entriesFor_lookup_notmem _ _ _ _ hnd2,
      foldSnap_entriesFor_lookup_notmem _ _ _ _ hna, hs, hasKey, hb]
    rfl

theorem entriesFor_singleton_some (g : String → Option RefDelta) (k : String) (d : RefDelta)
    (hg : g k = some d) : entriesFor g [k] = [(k, d)] := by
  rw [entriesFor_cons_some g k d [] hg]
  rfl

theorem entriesFor_all_none (g : String → Option RefDelta) (ks : List String)
    (h : ∀ k ∈ ks, g k = none) : entriesFor g ks = [] := by
  induction ks with
  | nil => rfl
  | cons k0 rest ih =>
    rw [entriesFor_cons_none g k0 rest (h k0 (List.mem_cons_self k0 rest))]
    exact ih (fun k hk => h k (List.mem_cons_of_mem k0 hk))

theorem gUpd_eq (diffAttr : LiveItem → DatablockRefProxy → Option DatablockRefProxy)
    (bl : Dict LiveItem) (self_data : Dict DatablockRefProxy) (k : String)
    (it : LiveItem) (p : DatablockRefProxy)
    (hb : lookupAL bl k = some it) (hs : lookupAL self_data k = some p) :
    gUpd diffAttr bl self_data k = Option.map RefDelta.deltaUpdate (diffAttr it p) := by
  simp only [gUpd]
  rw [hb, hs]

/-- Inputs of the C2 counterexample: the proxy tracks members a and c, the
live collection holds b and c, member c is unchanged. -/
def refA : DatablockRefProxy := { datablock_uuid := "a", debug_name := "A" }

def refC : DatablockRefProxy := { datablock_uuid := "c", debug_name := "C" }

def selfC2 : Dict DatablockRefProxy := [("a", refA), ("c", refC)]

def collC2 : List LiveItem :=
  [{ mixer_uuid := "b", name := "B" }, { mixer_uuid := "c", name := "C" }]

def readC2 (it : LiveItem) : DatablockRefProxy :=
  { datablock_uuid := it.mixer_uuid, debug_name := it.name }

def diffC2 (it : LiveItem) (p : DatablockRefProxy) : Option DatablockRefProxy := none

/-- Member codec of the counterexample: the common member c changed. -/
def diffCE (it : LiveItem) (p : DatablockRefProxy) : Option DatablockRefProxy :=
  if it.mixer_uuid = "c" then some { datablock_uuid := "c", debug_name := "changed" } else none

/-- C2 counterexample: with proxy members a and c and live members b and c
where the common member c changed, the live collection has exactly one member
not in the proxy and exactly one proxy member is absent from the live
collection, yet the claim fails twice over: the delta has three member
entries, not exactly two (the changed common member contributes a
DeltaUpdate), and applying the delta produced by diff to an EMPTY reference
collection proxy does not reproduce the live member set, as identifier c is
live but missing from the resulting snapshot (the DeltaUpdate member is
skipped by apply and the deletion of a is skipped on a KeyError, so an empty
starting proxy only receives the added member b). -/
theorem refDiff_empty_roundtrip_counterexample :
    ((keysAL (blenderItemsOf collC2)).filter (fun k => !(hasKey selfC2 k))).length = 1
    ∧ ((keysAL selfC2).filter (fun k => !(hasKey (blenderItemsOf collC2) k))).length = 1
    ∧ (diffData selfC2 collC2 readC2 diffCE).length = 3
    ∧ hasKey (blenderItemsOf collC2) "c" = true
    ∧ hasKey (DatablockRefCollectionProxy.apply [] false { liveLinked := [], snapshot := [] }
        (diffData selfC2 collC2 readC2 diffCE)).snapshot "c" = false := by
  decide

/-- C2 (amended): for a proxy and a live collection with exactly one added
identifier ka and exactly one deleted identifier kd, and no change on the
common members, diff yields a delta with exactly two member entries, the one
at ka tagged DeltaAddition and the one at kd tagged DeltaDeletion; and
applying the delta produced by diff to the proxy itself (not to an empty
proxy) yields a snapshot whose key set equals the live identifier set. -/
theorem DatablockRefCollectionProxy.diff_one_add_one_del
    (self_data : Dict DatablockRefProxy) (collection : List LiveItem)
    (readAttr : LiveItem → DatablockRefProxy)
    (diffAttr : LiveItem → DatablockRefProxy → Option DatablockRefProxy)
    (ka kd : String) (datablocks : Dict LiveItem) (tb : Bool) (live : List LiveItem)
    (hnd : (keysAL self_data).Nodup)
    (hadd : (keysAL (blenderItemsOf collection)).filter (fun k => !(hasKey self_data k)) = [ka])
    (hdel : (keysAL self_data).filter (fun k => !(hasKey (blenderItemsOf collection) k)) = [kd])
    (hupd : ∀ k it p, lookupAL (blenderItemsOf collection) k = some it →
      lookupAL self_data k = some p → diffAttr it p = none) :
    (∃ a b, DatablockRefCollectionProxy.diff self_data collection readAttr diffAttr
        = some [(ka, RefDelta.deltaAddition a), (kd, RefDelta.deltaDeletion b)])
    ∧ ∀ k, hasKey (DatablockRefCollectionProxy.apply datablocks tb
        { liveLinked := live, snapshot := self_data }
        (diffData self_data collection readAttr diffAttr)).snapshot k
      = hasKey (blenderItemsOf collection) k := by
  have hka_mem : ka ∈ (keysAL (blenderItemsOf collection)).filter
      (fun k => !(hasKey self_data k)) := by
    rw [hadd]
    exact List.mem_cons_self ka []
  have hkd_mem : kd ∈ (keysAL self_data).filter
      (fun k => !(hasKey (blenderItemsOf collection) k)) := by
    rw [hdel]
    exact List.mem_cons_self kd []
  have hka_bl : ka ∈ keysAL (blenderItemsOf collection) := (List.mem_filter.mp hka_mem).1
  have hkd_self : kd ∈ keysAL self_data := (List.mem_filter.mp hkd_mem).1
  have hka_some : (lookupAL (blenderItemsOf collection) ka).isSome = true :=
    (lookupAL_isSome_iff_mem _ ka).mpr hka_bl
  have hkd_some : (lookupAL self_data kd).isSome = true :=
    (lookupAL_isSome_iff_mem _ kd).mpr hkd_self
  rcases hit : lookupAL (blenderItemsOf collection) ka with _ | it
  · rw [hit] at hka_some
    simp at hka_some
  rcases hp : lookupAL self_data kd with _ | p
  · rw [hp] at hkd_some
    simp at hkd_some
  have hgadd : gAdd readAttr (blenderItemsOf collection) ka
      = some (RefDelta.deltaAddition (readAttr it)) := by
    rw [gAdd, hit, Option.map_some']
  have hgdel : gDel self_data kd = some (RefDelta.deltaDeletion p) := by
    rw [gDel, hp, Option.map_some']
  have hupdnil : entriesFor (gUpd diffAttr (blenderItemsOf collection) self_data)
      ((keysAL self_data).filter (fun k => hasKey (blenderItemsOf collection) k)) = [] := by
    apply entriesFor_all_none
    intro k hk
    have h1 : k ∈ keysAL self_data := (List.mem_filter.mp hk).1
    have h2 : hasKey (blenderItemsOf collection) k = true := (List.mem_filter.mp hk).2
    have h1s : (lookupAL self_data k).isSome = true := (lookupAL_isSome_iff_mem _ k).mpr h1
    rcases hsk : lookupAL self_data k with _ | p2
    · rw [hsk] at h1s
      simp at h1s
    rcases hbk : lookupAL (blenderItemsOf collection) k with _ | it2
    · rw [hasKey, hbk] at h2
      simp at h2
    rw [gUpd_eq diffAttr _ _ k it2 p2 hbk hsk, hupd k it2 p2 hbk hsk, Option.map_none']
  have hdd : diffData self_data collection readAttr diffAttr
      = [(ka, RefDelta.deltaAddition (readAttr it)), (kd, RefDelta.deltaDeletion p)] := by
    simp only [diffData]
    rw [hadd, hdel, entriesFor_singleton_some _ _ _ hgadd, entriesFor_singleton_some _ _ _ hgdel,
      hupdnil]
    simp
  constructor
  · refine ⟨readAttr it, p, ?_⟩
    rw [DatablockRefCollectionProxy.diff]
    rw [hdd]
    simp
  · intro k
    rw [apply_snapshot]
    exact foldSnap_diffData_hasKey self_data collection readAttr diffAttr hnd k

def refW : DatablockRefProxy := { datablock_uuid := "a", debug_name := "A" }

def selfW2 : Dict DatablockRefProxy := [("a", refW)]

def collW2 : List LiveItem := [{ mixer_uuid := "b", name := "B" }]

/-- Witness for the amended C2 at a concrete input: proxy tracking a, live
collection holding b. -/
theorem refDiff_one_add_one_del_witness :
    (∃ a b, DatablockRefCollectionProxy.diff selfW2 collW2 readC2 diffC2
        = some [("b", RefDelta.deltaAddition a), ("a", RefDelta.deltaDeletion b)])
    ∧ ∀ k, hasKey (DatablockRefCollectionProxy.apply [] false
        { liveLinked := [], snapshot := selfW2 }
        (diffData selfW2 collW2 readC2 diffC2)).snapshot k
      = hasKey (blenderItemsOf collW2) k :=
  DatablockRefCollectionProxy.diff_one_add_one_del selfW2 collW2 readC2 diffC2 "b" "a" [] false []
    (by decide) (by decide) (by decide) (fun k it p h1 h2 => rfl)

/-- Witness for C4 at a concrete input: a deletion member whose key is absent
from the snapshot raises a KeyError, is skipped, and the following addition
member is still processed. -/
theorem apply_member_exception_isolated_witness :
    applyMemberTry [] false { liveLinked := [], snapshot := [] } "x"
        (RefDelta.deltaDeletion refW)
      = MemberResult.raised { liveLinked := [], snapshot := [] }
    ∧ DatablockRefCollectionProxy.apply [] false { liveLinked := [], snapshot := [] }
        ([] ++ ("x", RefDelta.deltaDeletion refW) :: [("b", RefDelta.deltaAddition refW)])
      = DatablockRefCollectionProxy.apply [] false { liveLinked := [], snapshot := [] }
          [("b", RefDelta.deltaAddition refW)] :=
  ⟨by decide,
    DatablockRefCollectionProxy.apply_member_exception_isolated [] false
      { liveLinked := [], snapshot := [] } { liveLinked := [], snapshot := [] } []
      [("b", RefDelta.deltaAddition refW)] "x" (RefDelta.deltaDeletion refW) (by decide)⟩

/-- Witness for C10 at a concrete input: an empty registry, so the uuid of the
added reference is unregistered. -/
theorem apply_addition_unregistered_witness :
    DatablockRefCollectionProxy.apply [] true { liveLinked := [], snapshot := [] }
        [("a", RefDelta.deltaAddition refW)]
      = { liveLinked := ([] : List LiveItem), snapshot := insertAL [] "a" refW }
    ∧ (DatablockRefCollectionProxy.apply [] true { liveLinked := [], snapshot := [] }
        [("a", RefDelta.deltaAddition refW)]).liveLinked = []
    ∧ lookupAL (DatablockRefCollectionProxy.apply [] true { liveLinked := [], snapshot := [] }
        [("a", RefDelta.deltaAddition refW)]).snapshot "a" = some refW :=
  DatablockRefCollectionProxy.apply_addition_unregistered [] { liveLinked := [], snapshot := [] }
    "a" refW rfl

/-! ## DatablockCollectionProxy (datablock_collection_proxy.py:50-293)

DatablockProxy (datablock_proxy.py, data carrier for these algorithms) is
embedded by the fields the collection code reads: its mixer_uuid, its cached
name (proxy.data of name) and its bpy.data collection name.  str(proxy) is
embedded as strProxy.  The registry of the context (context.proxy_state) is
the pair of dicts proxies and datablocks. -/

structure DatablockProxy where
  mixer_uuid : String
  name : String
  collection_name : String
deriving DecidableEq, Repr

/-- Display string str(proxy) used in changeset entries; its exact content is
irrelevant, only that the same function is used everywhere. -/
def strProxy (p : DatablockProxy) : String :=
  p.collection_name ++ "/" ++ p.name ++ "/" ++ p.mixer_uuid

/-- Changeset (changeset.py): creations, removals (uuid, collection name,
label) and renames (uuid, old name, new name, label). -/
structure Changeset where
  creations : List DatablockProxy
  removals : List (String × String × String)
  renames : List (String × String × String × String)
deriving DecidableEq, Repr

def emptyChangeset : Changeset := { creations := [], removals := [], renames := [] }

/-- The mutable state read and written by DatablockCollectionProxy.update:
the collection proxy dict self._data, the registry dicts
context.proxy_state.proxies and context.proxy_state.datablocks, and the
changeset being built. -/
structure UpdateState where
  data : Dict DatablockProxy
  proxies : Dict DatablockProxy
  datablocks : Dict LiveItem
  changeset : Changeset
deriving DecidableEq, Repr

/-- Failure modes of loading one added datablock into a proxy
(datablock_collection_proxy.py:225-232): the structural recursion limit
MaxDepthExceeded, or any other exception. -/
inductive LoadErr where
  | maxDepthExceeded
  | otherExc
deriving DecidableEq, Repr

/-- External collaborators of update, as functions: collectionGet stands for
getattr(bpy.data, collection_name).get(name) resp. the subscript
proxy.collection[new_name], and loadProxy for
DatablockProxy.make(id).load(id, name, context, collection_name), which may
raise. -/
structure UpdateEnv where
  collectionGet : String → String → Option LiveItem
  loadProxy : LiveItem → String → String → Except LoadErr DatablockProxy

/-- The external structural diff handed to update (diff.py,
BpyPropCollectionDiff): items_added maps a datablock name to its bpy.data
collection name, items_removed and items_renamed hold proxies in encounter
order. -/
structure BpyPropCollectionDiff where
  items_added : Dict String
  items_removed : List DatablockProxy
  items_renamed : List (DatablockProxy × String)

/-- One iteration of the additions loop (datablock_collection_proxy.py:209-232)
for one name.  The whole body is inside a try/except whose handlers log and
continue: a name not found in the live collection is skipped (line 216-218),
and a loadProxy failure is caught after the registry datablocks entry was
already written (line 220 precedes the load at line 221). ensure_uuid is
embedded as reading the mixer_uuid of the live datablock. -/
def addOne (env : UpdateEnv) (items_added : Dict String) (st : UpdateState)
    (name : String) : UpdateState :=
  match lookupAL items_added name with
  | none => st
  | some collection_name =>
    match env.collectionGet collection_name name with
    | none => st
    | some id_ =>
      let uuid := id_.mixer_uuid
      let st1 := { st with datablocks := insertAL st.datablocks uuid id_ }
      match env.loadProxy id_ name collection_name with
      | Except.error _ => st1
      | Except.ok proxy =>
        { st1 with
          proxies := insertAL st1.proxies uuid proxy,
          data := insertAL st1.data uuid proxy,
          changeset := { st1.changeset with
            creations := st1.changeset.creations ++ [proxy] } }

def addLoop (env : UpdateEnv) (items_added : Dict String) :
    List String → UpdateState → UpdateState
  | [], st => st
  | n :: rest, st => addLoop env items_added rest (addOne env items_added st n)

/-- One iteration of the removals loop (datablock_collection_proxy.py:234-246).
The removal tuple is appended before any dict mutation, so a KeyError in one
of the subsequent dict operations (del self._data, the datablocks subscript,
del proxies, del datablocks, in source order) leaves the partial state and is
caught by the handler at line 243. -/
def removeOne (st : UpdateState) (proxy : DatablockProxy) : UpdateState :=
  let uuid := proxy.mixer_uuid
  let st1 := { st with changeset := { st.changeset with
    removals := st.changeset.removals ++ [(uuid, proxy.collection_name, strProxy proxy)] } }
  if !(hasKey st1.data uuid) then st1
  else
    let st2 := { st1 with data := eraseAL st1.data uuid }
    if !(hasKey st2.datablocks uuid) then st2
    else if !(hasKey st2.proxies uuid) then st2
    else
      { st2 with
        proxies := eraseAL st2.proxies uuid,
        datablocks := eraseAL st2.datablocks uuid }

def removeLoop : List DatablockProxy → UpdateState → UpdateState
  | [], st => st
  | p :: rest, st => removeLoop rest (removeOne st p)

/-- Mutation of a shared Python object: every dict slot holding the object
shows the new value.  Used for proxy.rename, which mutates the proxy object
aliased from self._data and context.proxy_state.proxies. -/
def mutateObj : Dict DatablockProxy → DatablockProxy → DatablockProxy → Dict DatablockProxy
  | [], _, _ => []
  | (k0, v0) :: tl, old, new =>
    (if v0 = old then (k0, new) else (k0, v0)) :: mutateObj tl old new

/-- Modelled from the spec (4.1 rename): DatablockProxy.rename, which lives in
datablock_proxy.py outside the studied sources, updates the cached name field
of the proxy; the Identifier is unchanged. -/
def DatablockProxy.rename (p : DatablockProxy) (new_name : String) : DatablockProxy :=
  { p with name := new_name }

/-- One iteration of the renames loop (datablock_collection_proxy.py:266-275).
The two subscripts in the validation check of line 268 are NOT inside a
try/except: a missing key raises out of update, embedded as Except.error.
The check itself only logs on mismatch.  The rename tuple records the old
name and the display string of the proxy before the rename. -/
def renameOne (env : UpdateEnv) (st : UpdateState) (proxy : DatablockProxy)
    (new_name : String) : Except String UpdateState :=
  match env.collectionGet proxy.collection_name new_name with
  | none => Except.error "KeyError"
  | some _item =>
    match lookupAL st.datablocks proxy.mixer_uuid with
    | none => Except.error "KeyError"
    | some _db =>
      let old_name := proxy.name
      let renamed := DatablockProxy.rename proxy new_name
      Except.ok { st with
        changeset := { st.changeset with
          renames := st.changeset.renames
            ++ [(proxy.mixer_uuid, old_name, new_name, strProxy proxy)] },
        data := mutateObj st.data proxy renamed,
        proxies := mutateObj st.proxies proxy renamed }

def renameLoop (env : UpdateEnv) : List (DatablockProxy × String) → UpdateState →
    Except String UpdateState
  | [], st => Except.ok st
  | (p, n) :: rest, st =>
    match renameOne env st p n with
    | Except.error e => Except.error e
    | Except.ok st1 => renameLoop env rest st1

/-- Embedding of DatablockCollectionProxy.update
(datablock_collection_proxy.py:202-277): additions in sorted name order, then
removals, then renames, building one Changeset. -/
def DatablockCollectionProxy.update (env : UpdateEnv) (diff : BpyPropCollectionDiff)
    (st : UpdateState) : Except String UpdateState :=
  renameLoop env diff.items_renamed
    (removeLoop diff.items_removed
      (addLoop env diff.items_added (sortStrings (keysAL diff.items_added)) st))

/-- The creation produced by the additions phase for one name, as a function
of the diff dict and the environment: none when the name is unknown, absent
from the live collection, or its load failed. -/
def gCreate (env : UpdateEnv) (items_added : Dict String) (name : String) :
    Option DatablockProxy :=
  match lookupAL items_added name with
  | none => none
  | some cname =>
    match env.collectionGet cname name with
    | none => none
    | some id_ => (env.loadProxy id_ name cname).toOption

theorem addOne_creations (env : UpdateEnv) (m : Dict String) (st : UpdateState)
    (name : String) :
    (addOne env m st name).changeset.creations
      = st.changeset.creations ++ (gCreate env m name).toList := by
  rw [addOne, gCreate]
  rcases h1 : lookupAL m name with _ | cname
  · simp
  · rcases h2 : env.collectionGet cname name with _ | id_
    · simp [h2]
    · rcases h3 : env.loadProxy id_ name cname with e | proxy
      · simp [h2, h3, Except.toOption]
      · simp [h2, h3, Except.toOption]

theorem addOne_removals_renames (env : UpdateEnv) (m : Dict String) (st : UpdateState)
    (name : String) :
    (addOne env m st name).changeset.removals = st.changeset.removals
    ∧ (addOne env m st name).changeset.renames = st.changeset.renames := by
  rw [addOne]
  rcases h1 : lookupAL m name with _ | cname
  · exact ⟨rfl, rfl⟩
  · rcases h2 : env.collectionGet cname name with _ | id_
    · simp [h2]
    · rcases h3 : env.loadProxy id_ name cname with e | proxy
      · simp [h2, h3]
      · simp [h2, h3]

theorem filterMap_cons_toList {α β : Type} (f : α → Option β) (a : α) (l : List α) :
    List.filterMap f (a :: l) = (f a).toList ++ List.filterMap f l := by
  cases h : f a <;> simp [List.filterMap_cons, h]

theorem addLoop_changeset (env : UpdateEnv) (m : Dict String) (l : List String)
    (st : UpdateState) :
    (addLoop env m l st).changeset.creations
      = st.changeset.creations ++ l.filterMap (gCreate env m)
    ∧ (addLoop env m l st).changeset.removals = st.changeset.removals
    ∧ (addLoop env m l st).changeset.renames = st.changeset.renames := by
  induction l generalizing st with
  | nil => simp [addLoop]
  | cons n rest ih =>
    rw [addLoop]
    obtain ⟨i1, i2, i3⟩ := ih (addOne env m st n)
    refine ⟨?_, ?_, ?_⟩
    · rw [i1, addOne_creations, filterMap_cons_toList, List.append_assoc]
    · rw [i2, (addOne_removals_renames env m st n).1]
    · rw [i3, (addOne_removals_renames env m st n).2]

theorem removeOne_changeset (st : UpdateState) (p : DatablockProxy) :
    (removeOne st p).changeset = { st.changeset with
      removals := st.changeset.removals
        ++ [(p.mixer_uuid, p.collection_name, strProxy p)] } := by
  rw [removeOne]
  by_cases hc1 : hasKey st.data p.mixer_uuid
  · by_cases hc2 : hasKey (eraseAL st.data p.mixer_uuid) p.mixer_uuid
    all_goals by_cases hc3 : hasKey st.datablocks p.mixer_uuid
    all_goals by_cases hc4 : hasKey st.proxies p.mixer_uuid
    all_goals simp [hc1, hc2, hc3, hc4]
  · simp [hc1]

theorem removeLoop_changeset (l : List DatablockProxy) (st : UpdateState) :
    (removeLoop l st).changeset.creations = st.changeset.creations
    ∧ (removeLoop l st).changeset.renames = st.changeset.renames
    ∧ (removeLoop l st).changeset.removals = st.changeset.removals
        ++ l.map (fun p => (p.mixer_uuid, p.collection_name, strProxy p)) := by
  induction l generalizing st with
  | nil => simp [removeLoop]
  | cons p rest ih =>
    rw [removeLoop]
    obtain ⟨i1, i2, i3⟩ := ih (removeOne st p)
    refine ⟨?_, ?_, ?_⟩
    · rw [i1, removeOne_changeset]
    · rw [i2, removeOne_changeset]
    · rw [i3, removeOne_changeset]
      simp

theorem renameOne_ok (env : UpdateEnv) (st : UpdateState) (p : DatablockProxy)
    (n : String) (st2 : UpdateState) (h : renameOne env st p n = Except.ok st2) :
    st2.changeset.creations = st.changeset.creations
    ∧ st2.changeset.removals = st.changeset.removals
    ∧ st2.changeset.renames = st.changeset.renames
        ++ [(p.mixer_uuid, p.name, n, strProxy p)] := by
  rw [renameOne] at h
  cases h1 : env.collectionGet p.collection_name n with
  | none =>
    rw [h1] at h
    simp at h
  | some item =>
    rw [h1] at h
    cases h2 : lookupAL st.datablocks p.mixer_uuid with
    | none =>
      rw [h2] at h
      simp at h
    | some db =>
      rw [h2] at h
      simp only [Except.ok.injEq] at h
      subst h
      exact ⟨rfl, rfl, rfl⟩

theorem renameLoop_ok_changeset (env : UpdateEnv) (l : List (DatablockProxy × String))
    (st st1 : UpdateState) (h : renameLoop env l st = Except.ok st1) :
    st1.changeset.creations = st.changeset.creations
    ∧ st1.changeset.removals = st.changeset.removals
    ∧ st1.changeset.renames = st.changeset.renames
        ++ l.map (fun pn => (pn.1.mixer_uuid, pn.1.name, pn.2, strProxy pn.1)) := by
  induction l generalizing st with
  | nil =>
    rw [renameLoop] at h
    simp only [Except.ok.injEq] at h
    subst h
    simp
  | cons e rest ih =>
    obtain ⟨p, n⟩ := e
    rw [renameLoop] at h
    cases hr : renameOne env st p n with
    | error e2 =>
      rw [hr] at h
      simp at h
    | ok st2 =>
      rw [hr] at h
      obtain ⟨i1, i2, i3⟩ := ih st2 h
      obtain ⟨j1, j2, j3⟩ := renameOne_ok env st p n st2 hr
      refine ⟨by rw [i1, j1], by rw [i2, j2], ?_⟩
      rw [i3, j3]
      simp

theorem filterMap_congr_mem {α β : Type} (l : List α) (f g : α → Option β)
    (h : ∀ a ∈ l, f a = g a) : l.filterMap f = l.filterMap g := by
  induction l with
  | nil => rfl
  | cons a rest ih =>
    rw [List.filterMap_cons, List.filterMap_cons, h a (List.mem_cons_self a rest),
      ih (fun b hb => h b (List.mem_cons_of_mem a hb))]

/-- C3: update processes the added names in lexicographically sorted order
regardless of the order in which the external diff discovered them, so two
runs over the same set of additions produce Changeset.creations in the same
sorted-name order; removals and renames keep the encounter order of the
external diff. -/
theorem DatablockCollectionProxy.update_deterministic_order
    (env : UpdateEnv) (d1 d2 : BpyPropCollectionDiff) (st0 st1 st2 : UpdateState)
    (hperm : List.Perm d1.items_added d2.items_added)
    (hnd : (keysAL d1.items_added).Nodup)
    (hrm : d1.items_removed = d2.items_removed)
    (hrn : d1.items_renamed = d2.items_renamed)
    (h1 : DatablockCollectionProxy.update env d1 st0 = Except.ok st1)
    (h2 : DatablockCollectionProxy.update env d2 st0 = Except.ok st2) :
    st1.changeset.creations = st2.changeset.creations
    ∧ st1.changeset.creations = st0.changeset.creations
        ++ (sortStrings (keysAL d1.items_added)).filterMap (gCreate env d1.items_added)
    ∧ st1.changeset.removals = st0.changeset.removals
        ++ d1.items_removed.map (fun p => (p.mixer_uuid, p.collection_name, strProxy p))
    ∧ st1.changeset.renames = st0.changeset.renames
        ++ d1.items_renamed.map (fun pn => (pn.1.mixer_uuid, pn.1.name, pn.2, strProxy pn.1)) := by
  rw [DatablockCollectionProxy.update] at h1 h2
  obtain ⟨a1, a2, a3⟩ := addLoop_changeset env d1.items_added
    (sortStrings (keysAL d1.items_added)) st0
  obtain ⟨b1, b2, b3⟩ := addLoop_changeset env d2.items_added
    (sortStrings (keysAL d2.items_added)) st0
  obtain ⟨r1, r2, r3⟩ := removeLoop_changeset d1.items_removed
    (addLoop env d1.items_added (sortStrings (keysAL d1.items_added)) st0)
  obtain ⟨s1, s2, s3⟩ := removeLoop_changeset d2.items_removed
    (addLoop env d2.items_added (sortStrings (keysAL d2.items_added)) st0)
  obtain ⟨n1, n2, n3⟩ := renameLoop_ok_changeset env d1.items_renamed _ st1 h1
  obtain ⟨m1, m2, m3⟩ := renameLoop_ok_changeset env d2.items_renamed _ st2 h2
  have hkeysperm : List.Perm (keysAL d1.items_added) (keysAL d2.items_added) :=
    List.Perm.map Prod.fst hperm
  have hsorteq : sortStrings (keysAL d1.items_added) = sortStrings (keysAL d2.items_added) :=
    sortStrings_eq_of_perm hkeysperm
  have hgeq : ∀ a, gCreate env d1.items_added a = gCreate env d2.items_added a := by
    intro a
    rw [gCreate, gCreate, lookupAL_perm hperm hnd a]
  have hcre1 : st1.changeset.creations = st0.changeset.creations
      ++ (sortStrings (keysAL d1.items_added)).filterMap (gCreate env d1.items_added) := by
    rw [n1, r1, a1]
  have hcre2 : st2.changeset.creations = st0.changeset.creations
      ++ (sortStrings (keysAL d2.items_added)).filterMap (gCreate env d2.items_added) := by
    rw [m1, s1, b1]
  refine ⟨?_, hcre1, ?_, ?_⟩
  · rw [hcre1, hcre2, ← hsorteq,
      filterMap_congr_mem _ _ _ (fun a _ => hgeq a)]
  · rw [n2, r3, a2]
  · rw [n3, r2, a3]

theorem lookupAL_mutateObj (m : Dict DatablockProxy) (old new : DatablockProxy)
    (k : String) (h : lookupAL m k = some old) :
    lookupAL (mutateObj m old new) k = some new := by
  induction m with
  | nil => simp [lookupAL] at h
  | cons hd tl ih =>
    obtain ⟨k0, v0⟩ := hd
    rw [mutateObj]
    by_cases h0 : k0 = k
    · subst h0
      simp only [lookupAL, if_true, eq_self_iff_true, Option.some.injEq] at h
      subst h
      rw [if_pos rfl]
      simp [lookupAL]
    · simp only [lookupAL, if_neg h0] at h
      have htl : lookupAL (mutateObj tl old new) k = some new := ih h
      by_cases hv : v0 = old
      · rw [if_pos hv]
        simp only [lookupAL, if_neg h0]
        exact htl
      · rw [if_neg hv]
        simp only [lookupAL, if_neg h0]
        exact htl

/-- C9: an update whose external diff reports no additions, no removals and a
single rename of a tracked proxy returns a Changeset whose renames list is
exactly [(identifier, old name, new name, str(proxy))], the cached name of
the proxy becomes the new name, and the identifier is unchanged by the
rename. -/
theorem DatablockCollectionProxy.update_single_rename
    (env : UpdateEnv) (st0 : UpdateState) (proxy : DatablockProxy) (new_name : String)
    (item db : LiveItem)
    (hchg : st0.changeset = emptyChangeset)
    (hcoll : env.collectionGet proxy.collection_name new_name = some item)
    (hdb : lookupAL st0.datablocks proxy.mixer_uuid = some db)
    (hpx : lookupAL st0.proxies proxy.mixer_uuid = some proxy) :
    ∃ st1, DatablockCollectionProxy.update env
        { items_added := [], items_removed := [], items_renamed := [(proxy, new_name)] } st0
      = Except.ok st1
    ∧ st1.changeset.renames = [(proxy.mixer_uuid, proxy.name, new_name, strProxy proxy)]
    ∧ st1.changeset.creations = []
    ∧ st1.changeset.removals = []
    ∧ lookupAL st1.proxies proxy.mixer_uuid = some (DatablockProxy.rename proxy new_name)
    ∧ (DatablockProxy.rename proxy new_name).name = new_name
    ∧ (DatablockProxy.rename proxy new_name).mixer_uuid = proxy.mixer_uuid := by
  have hro : renameOne env st0 proxy new_name = Except.ok
      { st0 with
        changeset := { st0.changeset with renames := st0.changeset.renames
          ++ [(proxy.mixer_uuid, proxy.name, new_name, strProxy proxy)] },
        data := mutateObj st0.data proxy (DatablockProxy.rename proxy new_name),
        proxies := mutateObj st0.proxies proxy (DatablockProxy.rename proxy new_name) } := by
    simp only [renameOne]
    rw [hcoll, hdb]
  refine ⟨{ st0 with
      changeset := { st0.changeset with renames := st0.changeset.renames
        ++ [(proxy.mixer_uuid, proxy.name, new_name, strProxy proxy)] },
      data := mutateObj st0.data proxy (DatablockProxy.rename proxy new_name),
      proxies := mutateObj st0.proxies proxy (DatablockProxy.rename proxy new_name) },
    ?_, ?_, ?_, ?_, ?_, rfl, rfl⟩
  · show renameLoop env [(proxy, new_name)] st0 = _
    rw [renameLoop, hro]
    rfl
  · rw [hchg]
    rfl
  · rw [hchg]
    rfl
  · rw [hchg]
    rfl
  · exact lookupAL_mutateObj st0.proxies proxy (DatablockProxy.rename proxy new_name)
      proxy.mixer_uuid hpx

/-! ## remove_datablock, update_datablock, create_datablock -/

/-- Outcome classes of the live removal performed by remove_datablock
(delete_scene for scenes, proxy.collection.remove(datablock) otherwise): it
may succeed, raise the dangling-reference ReferenceError, or raise anything
else. -/
inductive RemoveLiveResult where
  | ok
  | referenceError
  | otherError
deriving DecidableEq, Repr

inductive RemoveOutcome where
  | ok (data : Dict DatablockProxy)
  | raised (data : Dict DatablockProxy)
deriving DecidableEq, Repr

/-- Embedding of DatablockCollectionProxy.remove_datablock
(datablock_collection_proxy.py:174-192).  The live removal is abstracted by
its outcome.  Only ReferenceError is caught by the handler at line 184; any
other exception propagates before del self._data[uuid] runs; the del itself
raises KeyError when the uuid is untracked. -/
def DatablockCollectionProxy.remove_datablock (data : Dict DatablockProxy)
    (proxy : DatablockProxy) (live : RemoveLiveResult) : RemoveOutcome :=
  match live with
  | RemoveLiveResult.otherError => RemoveOutcome.raised data
  | _ =>
    if hasKey data proxy.mixer_uuid then RemoveOutcome.ok (eraseAL data proxy.mixer_uuid)
    else RemoveOutcome.raised data

/-- C5: when removing the live datablock fails with a dangling-reference
error because the entity was already destroyed transitively by a previous
removal in the same batch, the error is caught and logged as a warning, the
entry for the proxy identifier is still deleted from the collection map, and
no exception escapes remove_datablock. -/
theorem remove_datablock_reference_error_tolerated
    (data : Dict DatablockProxy) (proxy : DatablockProxy)
    (hnd : (keysAL data).Nodup)
    (hmem : hasKey data proxy.mixer_uuid = true) :
    DatablockCollectionProxy.remove_datablock data proxy RemoveLiveResult.referenceError
      = RemoveOutcome.ok (eraseAL data proxy.mixer_uuid)
    ∧ hasKey (eraseAL data proxy.mixer_uuid) proxy.mixer_uuid = false := by
  constructor
  · show (if hasKey data proxy.mixer_uuid then RemoveOutcome.ok (eraseAL data proxy.mixer_uuid)
      else RemoveOutcome.raised data) = _
    rw [if_pos hmem]
  · rw [hasKey, lookupAL_erase_self data _ hnd]
    rfl

/-- DeltaUpdate for a standalone datablock (proxy.py DeltaUpdate): carries the
incoming DatablockProxy. -/
structure DeltaUpdateDatablock where
  value : DatablockProxy
deriving DecidableEq, Repr

/-- The registry of the session context (context.proxy_state): the proxy map
and the live datablock map, both keyed by uuid. -/
structure ProxyState where
  proxies : Dict DatablockProxy
  datablocks : Dict LiveItem
deriving DecidableEq, Repr

/-- Embedding of DatablockCollectionProxy.update_datablock
(datablock_collection_proxy.py:142-172).  The per-datablock routine
proxy.update_standalone_datablock(existing_id, delta, context) lives in
datablock_proxy.py outside the studied sources and is the parameter
update_standalone; it may return a different live datablock (a morph), in
which case the registry datablock entry is repointed (lines 167-170). -/
def DatablockCollectionProxy.update_datablock (st : ProxyState)
    (update_standalone : DatablockProxy → LiveItem → DeltaUpdateDatablock → LiveItem)
    (delta : DeltaUpdateDatablock) : ProxyState × Option LiveItem :=
  let incoming := delta.value
  let uuid := incoming.mixer_uuid
  match lookupAL st.proxies uuid with
  | none => (st, none)
  | some proxy =>
    if proxy.mixer_uuid ≠ incoming.mixer_uuid then (st, none)
    else
      match lookupAL st.datablocks uuid with
      | none => (st, none)
      | some existing_id =>
        let id_ := update_standalone proxy existing_id delta
        if existing_id ≠ id_ then
          ({ st with datablocks := insertAL st.datablocks uuid id_ }, some id_)
        else (st, some id_)

/-- C6: update_datablock logs and returns without mutating any state when the
registry holds no proxy for the incoming identifier, or when the incoming and
resolved identifiers disagree, or when no live datablock is registered under
the identifier; otherwise it delegates to the per-datablock update routine,
and when that routine returns a different live datablock (a morph) the
registry datablock entry for the identifier is repointed to the new
datablock. -/
theorem DatablockCollectionProxy.update_datablock_spec
    (st : ProxyState)
    (update_standalone : DatablockProxy → LiveItem → DeltaUpdateDatablock → LiveItem)
    (delta : DeltaUpdateDatablock) :
    (lookupAL st.proxies delta.value.mixer_uuid = none →
      DatablockCollectionProxy.update_datablock st update_standalone delta = (st, none))
    ∧ (∀ proxy, lookupAL st.proxies delta.value.mixer_uuid = some proxy →
      proxy.mixer_uuid ≠ delta.value.mixer_uuid →
      DatablockCollectionProxy.update_datablock st update_standalone delta = (st, none))
    ∧ (∀ proxy, lookupAL st.proxies delta.value.mixer_uuid = some proxy →
      proxy.mixer_uuid = delta.value.mixer_uuid →
      lookupAL st.datablocks delta.value.mixer_uuid = none →
      DatablockCollectionProxy.update_datablock st update_standalone delta = (st, none))
    ∧ (∀ proxy existing_id, lookupAL st.proxies delta.value.mixer_uuid = some proxy →
      proxy.mixer_uuid = delta.value.mixer_uuid →
      lookupAL st.datablocks delta.value.mixer_uuid = some existing_id →
      existing_id ≠ update_standalone proxy existing_id delta →
      DatablockCollectionProxy.update_datablock st update_standalone delta
        = ({ st with datablocks := insertAL st.datablocks delta.value.mixer_uuid (update_standalone proxy existing_id delta) },
           some (update_standalone proxy existing_id delta)))
    ∧ (∀ proxy existing_id, lookupAL st.proxies delta.value.mixer_uuid = some proxy →
      proxy.mixer_uuid = delta.value.mixer_uuid →
      lookupAL st.datablocks delta.value.mixer_uuid = some existing_id →
      existing_id = update_standalone proxy existing_id delta →
      DatablockCollectionProxy.update_datablock st update_standalone delta
        = (st, some (update_standalone proxy existing_id delta))) := by
  refine ⟨?_, ?_, ?_, ?_, ?_⟩
  · intro hpx
    simp only [DatablockCollectionProxy.update_datablock, hpx]
  · intro proxy hpx hne
    simp only [DatablockCollectionProxy.update_datablock, hpx]
    rw [if_pos hne]
  · intro proxy hpx heq hdb
    simp only [DatablockCollectionProxy.update_datablock, hpx, hdb]
    rw [if_neg (by simpa using heq)]
  · intro proxy existing_id hpx heq hdb hne
    simp only [DatablockCollectionProxy.update_datablock, hpx, hdb]
    rw [if_neg (by simpa using heq), if_pos hne]
  · intro proxy existing_id hpx heq hdb hne
    simp only [DatablockCollectionProxy.update_datablock, hpx, hdb]
    rw [if_neg (by simpa using heq), if_neg (by simpa using hne)]

/-- Modelled from the spec (4.4 Unresolved-Reference Table), as the table
itself lives outside the studied sources: deferred actions keyed by the
target identifier, in registration order; an action is an opaque token. -/
abbrev UnresolvedRefs := List (String × Nat)

/-- Modelled from the spec (4.4): resolve(identifier, liveEntity) runs and
clears every deferred action registered for that identifier, in registration
order.  Running is embedded as returning the fired tokens. -/
def resolveRefs (t : UnresolvedRefs) (uuid : String) : List Nat × UnresolvedRefs :=
  ((t.filter (fun e => e.1 == uuid)).map Prod.snd, t.filter (fun e => !(e.1 == uuid)))

/-- The state touched by create_datablock: the collection dict self._data,
the registry dicts and the unresolved-reference table. -/
structure CreateState where
  data : Dict DatablockProxy
  proxies : Dict DatablockProxy
  datablocks : Dict LiveItem
  unresolved_refs : UnresolvedRefs
deriving DecidableEq, Repr

/-- Embedding of DatablockCollectionProxy.create_datablock
(datablock_collection_proxy.py:104-140).  The external construction
incoming.create_standalone_datablock(context) is the parameter ctor,
returning the optional live datablock and the optional rename changeset (an
opaque string here); bpy_data_ctor in specifics.py only touches the live
bpy.data collection, never the registry dicts, so ctor is a pure value.  The
scenes placeholder special case of lines 115-129 only acts on the live scene
collection and is not part of the modelled state. -/
def DatablockCollectionProxy.create_datablock (st : CreateState)
    (incoming : DatablockProxy)
    (ctor : DatablockProxy → Option LiveItem × Option String) :
    CreateState × List Nat × Option LiveItem × Option String :=
  match (ctor incoming).1 with
  | none => (st, [], none, none)
  | some datablock =>
    let uuid := incoming.mixer_uuid
    let fired := resolveRefs st.unresolved_refs uuid
    ({ data := insertAL st.data uuid incoming,
       proxies := insertAL st.proxies uuid incoming,
       datablocks := insertAL st.datablocks uuid datablock,
       unresolved_refs := fired.2 },
     fired.1, some datablock, (ctor incoming).2)

theorem filter_not_filter_nil {α : Type} (p : α → Bool) (l : List α) :
    (l.filter (fun a => !(p a))).filter p = [] := by
  induction l with
  | nil => rfl
  | cons a rest ih =>
    by_cases hp : p a = true
    · simp [List.filter_cons, hp, ih]
    · simp only [List.filter_cons, hp]
      simp only [Bool.not_eq_true] at hp
      simp [hp, List.filter_cons, ih]

/-- C7: when construction of the live datablock fails, create_datablock
returns (none, none) and leaves the collection dict, the registry proxy and
datablock dicts and the unresolved-reference table unchanged, and fires no
deferred action; when construction succeeds, the proxy and the datablock are
registered under the proxy identifier, every pending unresolved reference
targeting that identifier is fired in registration order, and no entry for
that identifier remains in the table. -/
theorem DatablockCollectionProxy.create_datablock_spec
    (st : CreateState) (incoming : DatablockProxy)
    (ctor : DatablockProxy → Option LiveItem × Option String) :
    ((ctor incoming).1 = none →
      DatablockCollectionProxy.create_datablock st incoming ctor = (st, [], none, none))
    ∧ (∀ db, (ctor incoming).1 = some db →
      DatablockCollectionProxy.create_datablock st incoming ctor
        = ({ data := insertAL st.data incoming.mixer_uuid incoming,
             proxies := insertAL st.proxies incoming.mixer_uuid incoming,
             datablocks := insertAL st.datablocks incoming.mixer_uuid db,
             unresolved_refs := st.unresolved_refs.filter (fun e => !(e.1 == incoming.mixer_uuid)) },
           (st.unresolved_refs.filter (fun e => e.1 == incoming.mixer_uuid)).map Prod.snd,
           some db, (ctor incoming).2)
      ∧ lookupAL (DatablockCollectionProxy.create_datablock st incoming ctor).1.data
          incoming.mixer_uuid = some incoming
      ∧ lookupAL (DatablockCollectionProxy.create_datablock st incoming ctor).1.proxies
          incoming.mixer_uuid = some incoming
      ∧ lookupAL (DatablockCollectionProxy.create_datablock st incoming ctor).1.datablocks
          incoming.mixer_uuid = some db
      ∧ (DatablockCollectionProxy.create_datablock st incoming ctor).1.unresolved_refs.filter
          (fun e => e.1 == incoming.mixer_uuid) = []) := by
  constructor
  · intro hc
    simp only [DatablockCollectionProxy.create_datablock, hc]
  · intro db hc
    have hmain : DatablockCollectionProxy.create_datablock st incoming ctor
        = ({ data := insertAL st.data incoming.mixer_uuid incoming,
             proxies := insertAL st.proxies incoming.mixer_uuid incoming,
             datablocks := insertAL st.datablocks incoming.mixer_uuid db,
             unresolved_refs := st.unresolved_refs.filter (fun e => !(e.1 == incoming.mixer_uuid)) },
           (st.unresolved_refs.filter (fun e => e.1 == incoming.mixer_uuid)).map Prod.snd,
           some db, (ctor incoming).2) := by
      simp only [DatablockCollectionProxy.create_datablock, hc, resolveRefs]
    refine ⟨hmain, ?_, ?_, ?_, ?_⟩
    · rw [hmain, lookupAL_insert]
      simp
    · rw [hmain, lookupAL_insert]
      simp
    · rw [hmain, lookupAL_insert]
      simp
    · rw [hmain]
      exact filter_not_filter_nil _ st.unresolved_refs

/-- C8: during the additions phase of update, a failure while loading one
added datablock (including exceeding the maximum structural-nesting depth) is
caught and logged, that one addition is skipped and appends nothing to
Changeset.creations (the registry datablock entry written before the load
remains, per the source order), and processing of the remaining added names
continues; no exception from one addition aborts the batch. -/
theorem DatablockCollectionProxy.update_addition_failure_isolated
    (env : UpdateEnv) (m : Dict String) (st : UpdateState) (n : String)
    (post : List String) (cname : String) (id_ : LiveItem) (e : LoadErr)
    (hcn : lookupAL m n = some cname)
    (hid : env.collectionGet cname n = some id_)
    (hload : env.loadProxy id_ n cname = Except.error e) :
    addLoop env m (n :: post) st
      = addLoop env m post { st with datablocks := insertAL st.datablocks id_.mixer_uuid id_ }
    ∧ (addLoop env m (n :: post) st).changeset.creations
      = st.changeset.creations ++ post.filterMap (gCreate env m)
    ∧ gCreate env m n = none := by
  have haddone : addOne env m st n
      = { st with datablocks := insertAL st.datablocks id_.mixer_uuid id_ } := by
    simp only [addOne, hcn, hid, hload]
  have hg : gCreate env m n = none := by
    simp only [gCreate, hcn, hid, hload, Except.toOption]
  refine ⟨?_, ?_, hg⟩
  · rw [addLoop, haddone]
  · rw [addLoop, haddone]
    have h1 := (addLoop_changeset env m post
      { st with datablocks := insertAL st.datablocks id_.mixer_uuid id_ }).1
    rw [h1]

/-! ## Concrete inputs for witnesses -/

def liveCube : LiveItem := { mixer_uuid := "u-cube", name := "Cube" }

def liveLight : LiveItem := { mixer_uuid := "u-light", name := "Light" }

def envW3 : UpdateEnv :=
  { collectionGet := fun cname name =>
      if cname = "objects" then
        if name = "Cube" then some liveCube
        else if name = "Light" then some liveLight
        else none
      else none,
    loadProxy := fun id_ name cname =>
      Except.ok { mixer_uuid := id_.mixer_uuid, name := name, collection_name := cname } }

def st0W : UpdateState :=
  { data := [], proxies := [], datablocks := [], changeset := emptyChangeset }

def d3a : BpyPropCollectionDiff :=
  { items_added := [("Light", "objects"), ("Cube", "objects")],
    items_removed := [], items_renamed := [] }

def d3b : BpyPropCollectionDiff :=
  { items_added := [("Cube", "objects"), ("Light", "objects")],
    items_removed := [], items_renamed := [] }

def w3out1 : UpdateState :=
  match DatablockCollectionProxy.update envW3 d3a st0W with
  | Except.ok s => s
  | Except.error _ => st0W

def w3out2 : UpdateState :=
  match DatablockCollectionProxy.update envW3 d3b st0W with
  | Except.ok s => s
  | Except.error _ => st0W

/-- Witness for C3 at a concrete input: the same two additions discovered in
both orders. -/
theorem update_deterministic_order_witness :
    w3out1.changeset.creations = w3out2.changeset.creations
    ∧ w3out1.changeset.creations = st0W.changeset.creations
        ++ (sortStrings (keysAL d3a.items_added)).filterMap (gCreate envW3 d3a.items_added)
    ∧ w3out1.changeset.removals = st0W.changeset.removals
        ++ d3a.items_removed.map (fun p => (p.mixer_uuid, p.collection_name, strProxy p))
    ∧ w3out1.changeset.renames = st0W.changeset.renames
        ++ d3a.items_renamed.map (fun pn => (pn.1.mixer_uuid, pn.1.name, pn.2, strProxy pn.1)) :=
  DatablockCollectionProxy.update_deterministic_order envW3 d3a d3b st0W w3out1 w3out2
    (by decide) (by decide) rfl rfl rfl rfl

def proxyU1 : DatablockProxy :=
  { mixer_uuid := "u1", name := "U1", collection_name := "objects" }

/-- Witness for C5 at a concrete input: the tracked entry u1 whose live
removal raises the dangling-reference error. -/
theorem remove_datablock_reference_error_tolerated_witness :
    DatablockCollectionProxy.remove_datablock [("u1", proxyU1)] proxyU1
        RemoveLiveResult.referenceError
      = RemoveOutcome.ok (eraseAL [("u1", proxyU1)] "u1")
    ∧ hasKey (eraseAL [("u1", proxyU1)] "u1") "u1" = false :=
  remove_datablock_reference_error_tolerated [("u1", proxyU1)] proxyU1 (by decide) (by decide)

def liveBad : LiveItem := { mixer_uuid := "u-bad", name := "Bad" }

def liveGood : LiveItem := { mixer_uuid := "u-good", name := "Good" }

def envW8 : UpdateEnv :=
  { collectionGet := fun cname name =>
      if cname = "objects" then
        if name = "Bad" then some liveBad
        else if name = "Good" then some liveGood
        else none
      else none,
    loadProxy := fun id_ name cname =>
      if name = "Bad" then Except.error LoadErr.maxDepthExceeded
      else Except.ok { mixer_uuid := id_.mixer_uuid, name := name, collection_name := cname } }

def m8 : Dict String := [("Bad", "objects"), ("Good", "objects")]

/-- Witness for C8 at a concrete input: loading Bad hits the structural depth
limit, Good is still processed. -/
theorem update_addition_failure_isolated_witness :
    addLoop envW8 m8 ("Bad" :: ["Good"]) st0W
      = addLoop envW8 m8 ["Good"]
          { st0W with datablocks := insertAL st0W.datablocks liveBad.mixer_uuid liveBad }
    ∧ (addLoop envW8 m8 ("Bad" :: ["Good"]) st0W).changeset.creations
      = st0W.changeset.creations ++ ["Good"].filterMap (gCreate envW8 m8)
    ∧ gCreate envW8 m8 "Bad" = none :=
  DatablockCollectionProxy.update_addition_failure_isolated envW8 m8 st0W "Bad" ["Good"]
    "objects" liveBad LoadErr.maxDepthExceeded rfl (by decide) rfl

def proxyCube : DatablockProxy :=
  { mixer_uuid := "u-cube", name := "Cube", collection_name := "objects" }

def liveBox : LiveItem := { mixer_uuid := "u-cube", name := "Box" }

def envW9 : UpdateEnv :=
  { collectionGet := fun cname name =>
      if cname = "objects" ∧ name = "Box" then some liveBox else none,
    loadProxy := fun id_ name cname =>
      Except.ok { mixer_uuid := id_.mixer_uuid, name := name, collection_name := cname } }

def st9 : UpdateState :=
  { data := [("u-cube", proxyCube)], proxies := [("u-cube", proxyCube)],
    datablocks := [("u-cube", liveBox)], changeset := emptyChangeset }

/-- Witness for C9 at a concrete input: renaming the tracked Cube proxy to
Box. -/
theorem update_single_rename_witness :
    ∃ st1, DatablockCollectionProxy.update envW9
        { items_added := [], items_removed := [], items_renamed := [(proxyCube, "Box")] } st9
      = Except.ok st1
    ∧ st1.changeset.renames
      = [(proxyCube.mixer_uuid, proxyCube.name, "Box", strProxy proxyCube)]
    ∧ st1.changeset.creations = []
    ∧ st1.changeset.removals = []
    ∧ lookupAL st1.proxies proxyCube.mixer_uuid = some (DatablockProxy.rename proxyCube "Box")
    ∧ (DatablockProxy.rename proxyCube "Box").name = "Box"
    ∧ (DatablockProxy.rename proxyCube "Box").mixer_uuid = proxyCube.mixer_uuid :=
  DatablockCollectionProxy.update_single_rename envW9 st9 proxyCube "Box" liveBox liveBox
    rfl (by decide) (by decide) (by decide)
